import Mathlib

/-!
Verification of the TOSS intent processor
(`src/solana/programs/toss-intent-processor/src/lib.rs`).

The program is embedded shallowly: bytes are `List Nat`, account keys are
32-byte lists, the clock is the signed 64-bit `unix_timestamp`, and the two
cross-program invocations (`advance_nonce_account`, `system_instruction::transfer`)
are modelled as calls into an external ledger oracle
`ExtCall → Option ProgramError` (`none` = the invoked program succeeded).
`process_intent` returns the `ProgramResult` together with the ordered list
of invocations it issued.
-/

set_option maxRecDepth 10000

/-- A Solana public key: 32 bytes (modelled as a list of byte values). -/
abbrev Pubkey := List Nat

/-- The fields of `solana_program::account_info::AccountInfo` that the
program reads: the key, the signer flag, the owner and the data length. -/
structure AccountInfo where
  key : Pubkey
  is_signer : Bool
  owner : Pubkey
  data_len : Nat
deriving DecidableEq, Repr

/-- `solana_program::system_program::ID`: the all-zero key. -/
def system_program_ID : Pubkey := List.replicate 32 0

/-- The intent payload of lib.rs lines 46–54 (`SolanaIntent`); `from` is a
Lean keyword, hence the field name `from_`. -/
structure SolanaIntent where
  from_ : Pubkey
  to_ : Pubkey
  amount : Nat
  nonce : Nat
  expiry : Nat
  nonce_account : Option Pubkey
  nonce_auth : Option Pubkey
deriving DecidableEq, Repr

/-- The `ProgramError` values this program can produce or propagate. -/
inductive ProgramError where
  | InvalidInstructionData
  | InvalidAccountData
  | MissingRequiredSignature
  | NotEnoughAccountKeys
  | Custom (code : Nat)
deriving DecidableEq, Repr

/-- The external cross-program invocations issued via `invoke`. -/
inductive ExtCall where
  | advanceNonce (nonce_account nonce_authority : Pubkey)
  | transfer (source dest : Pubkey) (amount : Nat)
deriving DecidableEq, Repr

/-- The host-supplied context of one invocation: the account list, the
clock sysvar's signed timestamp, and the ledger oracle answering each
`invoke` (`none` = success, `some e` = the CPI failed with `e`). -/
structure ProcState where
  accounts : List AccountInfo
  unix_timestamp : Int
  ledger : ExtCall → Option ProgramError

/-! ### Borsh decoding of `SolanaIntent` (`try_from_slice`) -/

/-- Little-endian value of a byte list. -/
def leNum : List Nat → Nat
  | [] => 0
  | b :: rest => b + 256 * leNum rest

/-- Split off the first `n` bytes, failing if fewer are available. -/
def readBytes (n : Nat) (bs : List Nat) : Option (List Nat × List Nat) :=
  if n ≤ bs.length then some (bs.take n, bs.drop n) else none

/-- Borsh `u64`: 8 bytes little-endian. -/
def readU64 (bs : List Nat) : Option (Nat × List Nat) :=
  match readBytes 8 bs with
  | some (chunk, rest) => some (leNum chunk, rest)
  | none => none

/-- Borsh `Pubkey`: 32 raw bytes. -/
def readPubkey (bs : List Nat) : Option (Pubkey × List Nat) := readBytes 32 bs

/-- Borsh `Option<Pubkey>`: tag byte `0` = `None`, `1` = `Some`, anything
else is a decode error. -/
def readOptionPubkey (bs : List Nat) : Option (Option Pubkey × List Nat) :=
  match bs with
  | 0 :: rest => some (none, rest)
  | 1 :: rest =>
    match readPubkey rest with
    | some (k, rest2) => some (some k, rest2)
    | none => none
  | _ => none

/-- `SolanaIntent::try_from_slice` (lib.rs line 101): field-by-field borsh
decode; like borsh's `try_from_slice` it fails when bytes are left over. -/
def decodeIntent (bs : List Nat) : Option SolanaIntent :=
  match readPubkey bs with
  | none => none
  | some (f, bs1) =>
    match readPubkey bs1 with
    | none => none
    | some (t, bs2) =>
      match readU64 bs2 with
      | none => none
      | some (amount, bs3) =>
        match readU64 bs3 with
        | none => none
        | some (nonce, bs4) =>
          match readU64 bs4 with
          | none => none
          | some (expiry, bs5) =>
            match readOptionPubkey bs5 with
            | none => none
            | some (na, bs6) =>
              match readOptionPubkey bs6 with
              | none => none
              | some (nb, bs7) =>
                if bs7 = [] then
                  some ⟨f, t, amount, nonce, expiry, na, nb⟩
                else none

/-- Borsh `u64` serialization: 8 bytes little-endian. -/
def u64Bytes (n : Nat) : List Nat :=
  [n % 256, n / 2 ^ 8 % 256, n / 2 ^ 16 % 256, n / 2 ^ 24 % 256,
   n / 2 ^ 32 % 256, n / 2 ^ 40 % 256, n / 2 ^ 48 % 256, n / 2 ^ 56 % 256]

/-- Borsh `Option<Pubkey>` serialization. -/
def encodeOptionPubkey : Option Pubkey → List Nat
  | none => [0]
  | some k => 1 :: k

/-- Borsh serialization of a `SolanaIntent` (used to build concrete
`intent_data` inputs). -/
def encodeIntent (i : SolanaIntent) : List Nat :=
  i.from_ ++ i.to_ ++ u64Bytes i.amount ++ u64Bytes i.nonce ++
    u64Bytes i.expiry ++ encodeOptionPubkey i.nonce_account ++
    encodeOptionPubkey i.nonce_auth

/-! ### The program -/

/-- The buffer `verify_data` built in lib.rs lines 202–206: signature count,
signature, sender key, message. -/
def ed25519_verify_data (sender : Pubkey) (message signature : List Nat) :
    List Nat :=
  0 :: (signature ++ sender ++ message)

/-- `verify_intent_signature` (lib.rs lines 188–214): builds the ed25519
verification buffer but never checks anything — it unconditionally
returns `Ok(())` ("placeholder"). -/
def verify_intent_signature (sender : Pubkey) (message : List Nat)
    (signature : List Nat) : Except ProgramError Unit :=
  let _verify_data := ed25519_verify_data sender message signature
  Except.ok ()

/-- `validate_nonce_account` (lib.rs lines 217–232): system-program
ownership and a minimum data length of 48 bytes. -/
def validate_nonce_account (nonce_account : AccountInfo) :
    Except ProgramError Unit :=
  if nonce_account.owner ≠ system_program_ID then
    Except.error ProgramError.InvalidAccountData
  else if nonce_account.data_len < 48 then
    Except.error ProgramError.InvalidAccountData
  else
    Except.ok ()

/-- Rust's `i64 as u64` cast (lib.rs line 125): two's-complement
reinterpretation, i.e. the value modulo `2 ^ 64`. -/
def i64_as_u64 (t : Int) : Nat := (t % (2 ^ 64 : Int)).toNat

/-- The expiry predicate of lib.rs line 126: strictly greater-than. -/
def is_expired (intent : SolanaIntent) (now : Nat) : Bool :=
  decide (now > intent.expiry)

/-- Steps 1–6 of `process_intent` after the intent has been decoded
(lib.rs lines 106–184), with the three leading accounts already drawn from
the iterator. `rest` is the remainder of the account list. -/
def process_intent_checked (sender recipient : AccountInfo)
    (rest : List AccountInfo) (unix_timestamp : Int)
    (ledger : ExtCall → Option ProgramError)
    (signature intent_data : List Nat) (intent : SolanaIntent) :
    Except ProgramError Unit × List ExtCall :=
  match verify_intent_signature intent.from_ intent_data signature with
  | Except.error e => (Except.error e, [])
  | Except.ok _ =>
    if sender.key ≠ intent.from_ then
      (Except.error ProgramError.InvalidAccountData, [])
    else if recipient.key ≠ intent.to_ then
      (Except.error ProgramError.InvalidAccountData, [])
    else if is_expired intent (i64_as_u64 unix_timestamp) then
      (Except.error ProgramError.InvalidInstructionData, [])
    else
      match intent.nonce_account, intent.nonce_auth with
      | some nonce_account_pubkey, some nonce_auth_pubkey =>
        match rest with
        | [] => (Except.error ProgramError.NotEnoughAccountKeys, [])
        | [_] => (Except.error ProgramError.NotEnoughAccountKeys, [])
        | nonce_account :: nonce_authority :: _ =>
          if nonce_account.key ≠ nonce_account_pubkey then
            (Except.error ProgramError.InvalidAccountData, [])
          else if nonce_authority.key ≠ nonce_auth_pubkey then
            (Except.error ProgramError.InvalidAccountData, [])
          else if !nonce_authority.is_signer then
            (Except.error ProgramError.MissingRequiredSignature, [])
          else
            match validate_nonce_account nonce_account with
            | Except.error e => (Except.error e, [])
            | Except.ok _ =>
              match ledger (ExtCall.advanceNonce nonce_account.key
                  nonce_authority.key) with
              | some e =>
                (Except.error e,
                 [ExtCall.advanceNonce nonce_account.key nonce_authority.key])
              | none =>
                match ledger (ExtCall.transfer sender.key recipient.key
                    intent.amount) with
                | some e =>
                  (Except.error e,
                   [ExtCall.advanceNonce nonce_account.key nonce_authority.key,
                    ExtCall.transfer sender.key recipient.key intent.amount])
                | none =>
                  (Except.ok (),
                   [ExtCall.advanceNonce nonce_account.key nonce_authority.key,
                    ExtCall.transfer sender.key recipient.key intent.amount])
      | _, _ =>
        match ledger (ExtCall.transfer sender.key recipient.key
            intent.amount) with
        | some e =>
          (Except.error e,
           [ExtCall.transfer sender.key recipient.key intent.amount])
        | none =>
          (Except.ok (),
           [ExtCall.transfer sender.key recipient.key intent.amount])

/-- `process_intent` (lib.rs lines 81–185): draw sender, recipient and
system program from the account iterator (`NotEnoughAccountKeys` when any
is missing), decode the intent (`InvalidInstructionData` on failure), then
run the checked pipeline. -/
def process_intent (st : ProcState) (signature intent_data : List Nat) :
    Except ProgramError Unit × List ExtCall :=
  match st.accounts with
  | sender :: recipient :: _system_program :: rest =>
    match decodeIntent intent_data with
    | none => (Except.error ProgramError.InvalidInstructionData, [])
    | some intent =>
      process_intent_checked sender recipient rest st.unix_timestamp
        st.ledger signature intent_data intent
  | _ => (Except.error ProgramError.NotEnoughAccountKeys, [])

/-! ### Concrete keys, accounts and intents for closed evaluations -/

/-- Concrete key A (the sender in the concrete runs). -/
def pkA : Pubkey := List.replicate 32 1

/-- Concrete key B (the recipient in the concrete runs). -/
def pkB : Pubkey := List.replicate 32 2

/-- Concrete key T (a nonce-account key). -/
def pkT : Pubkey := List.replicate 32 3

/-- Concrete key U (a nonce-authority key). -/
def pkU : Pubkey := List.replicate 32 4

/-- A 64-byte all-zero "signature" — not a valid signature of anything. -/
def sig0 : List Nat := List.replicate 64 0

/-- A ledger oracle on which every invocation succeeds. -/
def ledgerOk : ExtCall → Option ProgramError := fun _ => none

/-- Sender account A, marked signer. -/
def acctA : AccountInfo :=
  { key := pkA, is_signer := true, owner := system_program_ID, data_len := 0 }

/-- Sender account A with the signer flag cleared. -/
def acctA_unsigned : AccountInfo :=
  { key := pkA, is_signer := false, owner := system_program_ID, data_len := 0 }

/-- Recipient account B. -/
def acctB : AccountInfo :=
  { key := pkB, is_signer := false, owner := system_program_ID, data_len := 0 }

/-- The system-program account. -/
def acctSys : AccountInfo :=
  { key := system_program_ID, is_signer := false,
    owner := system_program_ID, data_len := 0 }

/-- A well-formed nonce account with key T. -/
def acctT : AccountInfo :=
  { key := pkT, is_signer := false, owner := system_program_ID,
    data_len := 48 }

/-- A signing nonce authority with key U. -/
def acctU : AccountInfo :=
  { key := pkU, is_signer := true, owner := system_program_ID, data_len := 0 }

/-- A plain intent: A pays B one million lamports, no durable nonce. -/
def intentPlain : SolanaIntent :=
  { from_ := pkA, to_ := pkB, amount := 1000000, nonce := 1,
    expiry := 9999999999, nonce_account := none, nonce_auth := none }

/-- The plain intent carrying only a `nonce_account`, no `nonce_auth`:
exactly one of the two optional durable-nonce fields is present. -/
def intentOneSided : SolanaIntent :=
  { intentPlain with nonce_account := some pkT, nonce_auth := none }

/-- The plain intent carrying both durable-nonce fields. -/
def intentDurable : SolanaIntent :=
  { intentPlain with nonce_account := some pkT, nonce_auth := some pkU }

/-- The plain intent already expired at any positive time. -/
def intentExpired : SolanaIntent := { intentPlain with expiry := 0 }

/-- A ledger oracle on which the nonce advance fails with `Custom 7` and
everything else succeeds. -/
def ledgerAdvFail : ExtCall → Option ProgramError := fun c =>
  match c with
  | ExtCall.advanceNonce _ _ => some (ProgramError.Custom 7)
  | _ => none

/-- A ledger oracle on which the transfer fails with `Custom 9` and
everything else succeeds. -/
def ledgerTransferFail : ExtCall → Option ProgramError := fun c =>
  match c with
  | ExtCall.transfer _ _ _ => some (ProgramError.Custom 9)
  | _ => none

/-- The nonce authority U with its signer flag cleared. -/
def acctU_unsigned : AccountInfo := { acctU with is_signer := false }

/-- A nonce account with key T whose data is too short (10 bytes). -/
def acctT_short : AccountInfo := { acctT with data_len := 10 }

/-! ### Claim theorems -/

/-- C1: the signature authenticator is a stub. `verify_intent_signature`
returns `Ok` for every sender key, message and signature — in particular
for an all-zero 64-byte signature, which is not a valid signature of
anything — and `process_intent` settles a full intent on the strength of
that unconditional success, so the authenticator reports success without
performing any verification. -/
theorem C1_verify_is_stub :
    (∀ (sender : Pubkey) (message signature : List Nat),
      verify_intent_signature sender message signature = Except.ok ()) ∧
    verify_intent_signature pkA (encodeIntent intentPlain) sig0
      = Except.ok () ∧
    process_intent ⟨[acctA, acctB, acctSys], 0, ledgerOk⟩ sig0
        (encodeIntent intentPlain)
      = (Except.ok (), [ExtCall.transfer pkA pkB 1000000]) :=
  ⟨fun _ _ _ => rfl, rfl, rfl⟩

/-- C2 counterexample: an intent with `nonce_account = some pkT` and
`nonce_auth = none` (exactly one durable-nonce field present) is not
rejected by any structural validation: `process_intent` succeeds and
issues the transfer. -/
theorem C2_counterexample :
    decodeIntent (encodeIntent intentOneSided) = some intentOneSided ∧
    intentOneSided.nonce_account = some pkT ∧
    intentOneSided.nonce_auth = none ∧
    process_intent ⟨[acctA, acctB, acctSys], 0, ledgerOk⟩ sig0
        (encodeIntent intentOneSided)
      = (Except.ok (), [ExtCall.transfer pkA pkB 1000000]) :=
  ⟨rfl, rfl, rfl, rfl⟩

/-- C3 counterexample: with the sender account's signer flag cleared and a
ledger on which the transfer succeeds, `process_intent` still returns
success and issues the transfer — the program itself never checks that the
sender signed the invocation. -/
theorem C3_counterexample :
    acctA_unsigned.is_signer = false ∧
    process_intent ⟨[acctA_unsigned, acctB, acctSys], 0, ledgerOk⟩ sig0
        (encodeIntent intentPlain)
      = (Except.ok (), [ExtCall.transfer pkA pkB 1000000]) :=
  ⟨rfl, rfl⟩

/-- Any expired intent is rejected on a path that issues no invocation:
whatever the account list, once the decoded intent's expiry lies strictly
below the cast current time, `process_intent` returns some error with an
empty invocation trace. -/
theorem process_intent_expired_aux (st : ProcState) (sig data : List Nat)
    (i : SolanaIntent) (hdec : decodeIntent data = some i)
    (hexp : i.expiry < i64_as_u64 st.unix_timestamp) :
    ∃ e, process_intent st sig data = (Except.error e, []) := by
  obtain ⟨accs, t, led⟩ := st
  rcases accs with _ | ⟨s, accs⟩
  · exact ⟨ProgramError.NotEnoughAccountKeys, rfl⟩
  rcases accs with _ | ⟨r, accs⟩
  · exact ⟨ProgramError.NotEnoughAccountKeys, rfl⟩
  rcases accs with _ | ⟨p, rest⟩
  · exact ⟨ProgramError.NotEnoughAccountKeys, rfl⟩
  simp only [process_intent, hdec]
  unfold process_intent_checked
  simp only [verify_intent_signature]
  by_cases h1 : s.key ≠ i.from_
  · rw [if_pos h1]; exact ⟨_, rfl⟩
  rw [if_neg h1]
  by_cases h2 : r.key ≠ i.to_
  · rw [if_pos h2]; exact ⟨_, rfl⟩
  rw [if_neg h2]
  have hcond : is_expired i (i64_as_u64 t) = true := by
    simpa [is_expired] using hexp
  rw [if_pos hcond]
  exact ⟨_, rfl⟩

/-- C4: whenever the current host time strictly exceeds the decoded
intent's expiry, `process_intent` fails without issuing any transfer or
nonce advance regardless of the signature, and — once the account list is
well-formed and the sender and recipient keys match the intent — the error
is exactly the one produced at the expiry check
(`InvalidInstructionData`). -/
theorem C4_expired_rejected (st : ProcState) (sig data : List Nat)
    (i : SolanaIntent) (hdec : decodeIntent data = some i)
    (hexp : i.expiry < i64_as_u64 st.unix_timestamp) :
    (process_intent st sig data).1 ≠ Except.ok () ∧
    (process_intent st sig data).2 = [] ∧
    ∀ s r p tail, st.accounts = s :: r :: p :: tail → s.key = i.from_ →
      r.key = i.to_ →
      (process_intent st sig data).1
        = Except.error ProgramError.InvalidInstructionData := by
  obtain ⟨e, he⟩ := process_intent_expired_aux st sig data i hdec hexp
  refine ⟨?_, ?_, ?_⟩
  · rw [he]; simp
  · rw [he]
  intro s r p tail hacc hs hr
  have hcond : is_expired i (i64_as_u64 st.unix_timestamp) = true := by
    simpa [is_expired] using hexp
  simp only [process_intent, hacc, hdec]
  unfold process_intent_checked
  simp only [verify_intent_signature]
  rw [if_neg (by simp [hs]), if_neg (by simp [hr]), if_pos hcond]

/-- C4 witness: the plain intent with `expiry = 0` evaluated at host time
`5` is rejected with `InvalidInstructionData`. -/
theorem C4_expired_rejected_witness :
    (process_intent ⟨[acctA, acctB, acctSys], 5, ledgerOk⟩ sig0
        (encodeIntent intentExpired)).1
      = Except.error ProgramError.InvalidInstructionData :=
  (C4_expired_rejected ⟨[acctA, acctB, acctSys], 5, ledgerOk⟩ sig0
      (encodeIntent intentExpired) intentExpired rfl (by decide)).2.2
    acctA acctB acctSys [] rfl rfl rfl

/-- C10: the cast `unix_timestamp as u64` wraps modulo `2 ^ 64`, so a
negative clock (any `i64` value in `[-2 ^ 63, 0)`) yields a current time of
at least `2 ^ 63`, and every intent whose expiry is below `2 ^ 63` is then
rejected as expired, with no invocation issued. -/
theorem C10_negative_clock_rejects (st : ProcState) (sig data : List Nat)
    (i : SolanaIntent) (hneg : st.unix_timestamp < 0)
    (hrange : -(2 ^ 63 : Int) ≤ st.unix_timestamp)
    (hdec : decodeIntent data = some i) (hexp : i.expiry < 2 ^ 63) :
    2 ^ 63 ≤ i64_as_u64 st.unix_timestamp ∧
    is_expired i (i64_as_u64 st.unix_timestamp) = true ∧
    (process_intent st sig data).1 ≠ Except.ok () ∧
    (process_intent st sig data).2 = [] := by
  have hge : 2 ^ 63 ≤ i64_as_u64 st.unix_timestamp := by
    simp only [i64_as_u64]
    omega
  have hlt : i.expiry < i64_as_u64 st.unix_timestamp := lt_of_lt_of_le hexp hge
  obtain ⟨e, he⟩ := process_intent_expired_aux st sig data i hdec hlt
  refine ⟨hge, by simpa [is_expired] using hlt, ?_, ?_⟩
  · rw [he]; simp
  · rw [he]

/-- C10 witness: at clock value `-1` the cast current time is at least
`2 ^ 63` and the plain intent (expiry `9999999999`) is treated as
expired. -/
theorem C10_negative_clock_rejects_witness :
    2 ^ 63 ≤ i64_as_u64 (-1 : Int) ∧
    is_expired intentPlain (i64_as_u64 (-1 : Int)) = true :=
  ⟨(C10_negative_clock_rejects ⟨[acctA, acctB, acctSys], -1, ledgerOk⟩ sig0
      (encodeIntent intentPlain) intentPlain (by decide) (by decide) rfl
      (by decide)).1,
   (C10_negative_clock_rejects ⟨[acctA, acctB, acctSys], -1, ledgerOk⟩ sig0
      (encodeIntent intentPlain) intentPlain (by decide) (by decide) rfl
      (by decide)).2.1⟩

/-- C5: for a decodable, unexpired intent with no durable-nonce fields,
whose presented sender and recipient accounts carry exactly `intent.from`
and `intent.to`, and with a transfer primitive that succeeds,
`process_intent` returns success and its invocation trace is exactly one
transfer of `intent.amount` from `intent.from` to `intent.to` — no other
ledger call is issued. -/
theorem C5_happy_path (st : ProcState) (sig data : List Nat)
    (i : SolanaIntent) (s r p : AccountInfo) (tail : List AccountInfo)
    (hacc : st.accounts = s :: r :: p :: tail)
    (hdec : decodeIntent data = some i)
    (hna : i.nonce_account = none) (hnb : i.nonce_auth = none)
    (hs : s.key = i.from_) (hr : r.key = i.to_)
    (hexp : i64_as_u64 st.unix_timestamp ≤ i.expiry)
    (hled : st.ledger (ExtCall.transfer i.from_ i.to_ i.amount) = none) :
    process_intent st sig data
      = (Except.ok (), [ExtCall.transfer i.from_ i.to_ i.amount]) := by
  have hcond : is_expired i (i64_as_u64 st.unix_timestamp) = false := by
    simp [is_expired]
    omega
  simp only [process_intent, hacc, hdec]
  unfold process_intent_checked
  simp only [verify_intent_signature]
  rw [if_neg (by simp [hs]), if_neg (by simp [hr]), if_neg (by simp [hcond])]
  simp only [hna, hnb, hs, hr, hled]

/-- C5 witness: a 42-lamport plain intent settles with exactly one
transfer invocation. -/
theorem C5_happy_path_witness :
    process_intent
        ⟨[acctA, acctB, acctSys], 0, ledgerOk⟩ sig0
        (encodeIntent { intentPlain with amount := 42 })
      = (Except.ok (), [ExtCall.transfer pkA pkB 42]) :=
  C5_happy_path ⟨[acctA, acctB, acctSys], 0, ledgerOk⟩ sig0
    (encodeIntent { intentPlain with amount := 42 })
    { intentPlain with amount := 42 } acctA acctB acctSys [] rfl rfl rfl rfl
    rfl rfl (by decide) rfl

/-- C6: in durable-nonce mode, when every check passes but the external
nonce-advance invocation fails with `e`, `process_intent` propagates `e`
and the invocation trace consists of the advance call alone — the transfer
is never issued. -/
theorem C6_advance_failure_blocks_transfer (st : ProcState)
    (sig data : List Nat) (i : SolanaIntent) (na nb : Pubkey)
    (s r p n a : AccountInfo) (tail : List AccountInfo) (e : ProgramError)
    (hacc : st.accounts = s :: r :: p :: n :: a :: tail)
    (hdec : decodeIntent data = some i)
    (hna : i.nonce_account = some na) (hnb : i.nonce_auth = some nb)
    (hs : s.key = i.from_) (hr : r.key = i.to_)
    (hexp : i64_as_u64 st.unix_timestamp ≤ i.expiry)
    (hn : n.key = na) (hauth : a.key = nb) (hsig : a.is_signer = true)
    (hown : n.owner = system_program_ID) (hlen : ¬ n.data_len < 48)
    (hled : st.ledger (ExtCall.advanceNonce na nb) = some e) :
    process_intent st sig data
      = (Except.error e, [ExtCall.advanceNonce na nb]) := by
  have hcond : is_expired i (i64_as_u64 st.unix_timestamp) = false := by
    simp [is_expired]
    omega
  simp only [process_intent, hacc, hdec]
  unfold process_intent_checked
  simp only [verify_intent_signature]
  rw [if_neg (by simp [hs]), if_neg (by simp [hr]), if_neg (by simp [hcond])]
  simp only [hna, hnb]
  rw [if_neg (by simp [hn]), if_neg (by simp [hauth])]
  simp only [hsig, Bool.not_true, validate_nonce_account, hown, hlen]
  simp only [hn, hauth, hled]
  simp

/-- C6 witness: the durable intent against a ledger whose advance fails
returns the propagated error with only the advance call in the trace. -/
theorem C6_advance_failure_blocks_transfer_witness :
    process_intent ⟨[acctA, acctB, acctSys, acctT, acctU], 0, ledgerAdvFail⟩
        sig0 (encodeIntent intentDurable)
      = (Except.error (ProgramError.Custom 7),
         [ExtCall.advanceNonce pkT pkU]) :=
  C6_advance_failure_blocks_transfer
    ⟨[acctA, acctB, acctSys, acctT, acctU], 0, ledgerAdvFail⟩ sig0
    (encodeIntent intentDurable) intentDurable pkT pkU acctA acctB acctSys
    acctT acctU [] (ProgramError.Custom 7) rfl rfl rfl rfl rfl rfl
    (by decide) rfl rfl rfl rfl (by decide) rfl

/-- C8: the expiry check is a strict greater-than — `is_expired intent now`
is `true` exactly when `now > intent.expiry`, so at `now = intent.expiry`
the check still passes, and it first fires at `expiry + 1`. -/
theorem C8_expiry_strict_boundary (i : SolanaIntent) (n : Nat) :
    (is_expired i n = true ↔ i.expiry < n) ∧
    is_expired i i.expiry = false ∧
    is_expired i (i.expiry + 1) = true := by
  refine ⟨?_, ?_, ?_⟩ <;> simp [is_expired]

/-- When the decoded intent carries no `nonce_account`, the checked
pipeline never issues a nonce-advance invocation. -/
theorem checked_no_durable_no_advance (s r : AccountInfo)
    (rest : List AccountInfo) (t : Int)
    (led : ExtCall → Option ProgramError) (sig data : List Nat)
    (i : SolanaIntent) (hna : i.nonce_account = none) (x y : Pubkey) :
    ExtCall.advanceNonce x y ∉
      (process_intent_checked s r rest t led sig data i).2 := by
  unfold process_intent_checked
  simp only [verify_intent_signature, hna]
  by_cases h1 : s.key ≠ i.from_
  · rw [if_pos h1]; simp
  rw [if_neg h1]
  by_cases h2 : r.key ≠ i.to_
  · rw [if_pos h2]; simp
  rw [if_neg h2]
  by_cases h3 : is_expired i (i64_as_u64 t) = true
  · rw [if_pos h3]; simp
  rw [if_neg h3]
  rcases hled : led (ExtCall.transfer s.key r.key i.amount) with _ | e <;>
    simp [hled]

/-- C2 amended: an intent with exactly one durable-nonce field present is
not rejected structurally — `process_intent` silently falls back to the
non-durable path, behaving exactly as if both fields were absent, and in
particular it never issues a nonce-advance invocation. -/
theorem C2_one_sided_treated_as_plain (st : ProcState)
    (sig data : List Nat) (i : SolanaIntent) (s r p : AccountInfo)
    (tail : List AccountInfo) (hacc : st.accounts = s :: r :: p :: tail)
    (hdec : decodeIntent data = some i)
    (hone : (∃ k, i.nonce_account = some k ∧ i.nonce_auth = none) ∨
            (i.nonce_account = none ∧ ∃ k, i.nonce_auth = some k)) :
    process_intent st sig data
      = process_intent_checked s r tail st.unix_timestamp st.ledger sig data
          { i with nonce_account := none, nonce_auth := none } ∧
    ∀ x y : Pubkey,
      ExtCall.advanceNonce x y ∉ (process_intent st sig data).2 := by
  have heq : process_intent st sig data
      = process_intent_checked s r tail st.unix_timestamp st.ledger sig data
          { i with nonce_account := none, nonce_auth := none } := by
    simp only [process_intent, hacc, hdec]
    rcases hone with ⟨k, h1, h2⟩ | ⟨h1, ⟨k, h2⟩⟩ <;>
    · unfold process_intent_checked
      simp only [verify_intent_signature, is_expired, h1, h2]
  refine ⟨heq, ?_⟩
  intro x y
  rw [heq]
  exact checked_no_durable_no_advance s r tail st.unix_timestamp st.ledger
    sig data { i with nonce_account := none, nonce_auth := none } rfl x y

/-- C2 amended witness: the one-sided intent settles through the
non-durable path. -/
theorem C2_one_sided_treated_as_plain_witness :
    process_intent ⟨[acctA, acctB, acctSys], 0, ledgerOk⟩ sig0
        (encodeIntent intentOneSided)
      = process_intent_checked acctA acctB [] 0 ledgerOk sig0
          (encodeIntent intentOneSided)
          { intentOneSided with nonce_account := none, nonce_auth := none } :=
  (C2_one_sided_treated_as_plain ⟨[acctA, acctB, acctSys], 0, ledgerOk⟩ sig0
      (encodeIntent intentOneSided) intentOneSided acctA acctB acctSys []
      rfl rfl (Or.inl ⟨pkT, rfl, rfl⟩)).1

/-- C3 amended: `process_intent` never reads the sender account's signer
flag — flipping it changes neither the result nor the issued invocations.
Sender-signature enforcement, if any, is left entirely to the external
transfer primitive. -/
theorem C3_sender_signer_flag_ignored (k ow : Pubkey) (dl : Nat)
    (b1 b2 : Bool) (rest : List AccountInfo) (t : Int)
    (led : ExtCall → Option ProgramError) (sig data : List Nat) :
    process_intent ⟨⟨k, b1, ow, dl⟩ :: rest, t, led⟩ sig data
      = process_intent ⟨⟨k, b2, ow, dl⟩ :: rest, t, led⟩ sig data := by
  rcases rest with _ | ⟨r, rest⟩
  · rfl
  rcases rest with _ | ⟨p, rest⟩
  · rfl
  rcases hdec : decodeIntent data with _ | i
  · simp only [process_intent, hdec]
  · simp only [process_intent, hdec]
    rfl

/-- C9: the sender-chosen `nonce` field is never consulted — two decoded
intents identical in every field except `nonce`, processed in the same
context with the same signature, produce the same result and the same
sequence of external invocations. -/
theorem C9_nonce_field_never_consulted (st : ProcState)
    (sig d1 d2 : List Nat) (f t2 : Pubkey) (am n1 n2 ex : Nat)
    (na nb : Option Pubkey)
    (h1 : decodeIntent d1 = some ⟨f, t2, am, n1, ex, na, nb⟩)
    (h2 : decodeIntent d2 = some ⟨f, t2, am, n2, ex, na, nb⟩) :
    process_intent st sig d1 = process_intent st sig d2 := by
  obtain ⟨accs, t, led⟩ := st
  rcases accs with _ | ⟨s, accs⟩
  · rfl
  rcases accs with _ | ⟨r, accs⟩
  · rfl
  rcases accs with _ | ⟨p, rest⟩
  · rfl
  simp only [process_intent, h1, h2]
  rfl

/-- C9 witness: two concrete encodings differing only in the nonce bytes
settle identically. -/
theorem C9_nonce_field_never_consulted_witness :
    process_intent ⟨[acctA, acctB, acctSys], 0, ledgerOk⟩ sig0
        (encodeIntent intentPlain)
      = process_intent ⟨[acctA, acctB, acctSys], 0, ledgerOk⟩ sig0
        (encodeIntent { intentPlain with nonce := 2 }) :=
  C9_nonce_field_never_consulted ⟨[acctA, acctB, acctSys], 0, ledgerOk⟩
    sig0 (encodeIntent intentPlain)
    (encodeIntent { intentPlain with nonce := 2 }) pkA pkB 1000000 1 2
    9999999999 none none rfl rfl

/-- C7 counterexample: two different failure causes return the same error
value. Decode failure (empty intent bytes) and expiry failure (valid
bytes, expired intent) both surface as `InvalidInstructionData`, so the
returned error does not distinguish them. -/
theorem C7_counterexample :
    decodeIntent [] = none ∧
    process_intent ⟨[acctA, acctB, acctSys], 0, ledgerOk⟩ sig0 []
      = (Except.error ProgramError.InvalidInstructionData, []) ∧
    decodeIntent (encodeIntent intentExpired) = some intentExpired ∧
    intentExpired.expiry < i64_as_u64 5 ∧
    process_intent ⟨[acctA, acctB, acctSys], 5, ledgerOk⟩ sig0
        (encodeIntent intentExpired)
      = (Except.error ProgramError.InvalidInstructionData, []) :=
  ⟨rfl, rfl, rfl, by decide, rfl⟩

/-- C7 amended: every failure surfaces as an inspectable error value, but
the failure kinds are not pairwise distinct. Concretely: decode failure
and expiry both return `InvalidInstructionData`; sender mismatch, nonce
token mismatch, nonce authority mismatch and malformed token all return
`InvalidAccountData`; only the missing-authority-signature failure
(`MissingRequiredSignature`) and propagated ledger-call errors (here
`Custom 9`) are distinguishable from the rest. -/
theorem C7_error_values_collapsed :
    process_intent ⟨[acctA, acctB, acctSys], 0, ledgerOk⟩ sig0 []
      = (Except.error ProgramError.InvalidInstructionData, []) ∧
    process_intent ⟨[acctA, acctB, acctSys], 5, ledgerOk⟩ sig0
        (encodeIntent intentExpired)
      = (Except.error ProgramError.InvalidInstructionData, []) ∧
    process_intent ⟨[acctB, acctB, acctSys], 0, ledgerOk⟩ sig0
        (encodeIntent intentPlain)
      = (Except.error ProgramError.InvalidAccountData, []) ∧
    process_intent ⟨[acctA, acctB, acctSys, acctU, acctU], 0, ledgerOk⟩
        sig0 (encodeIntent intentDurable)
      = (Except.error ProgramError.InvalidAccountData, []) ∧
    process_intent ⟨[acctA, acctB, acctSys, acctT, acctT], 0, ledgerOk⟩
        sig0 (encodeIntent intentDurable)
      = (Except.error ProgramError.InvalidAccountData, []) ∧
    process_intent
        ⟨[acctA, acctB, acctSys, acctT_short, acctU], 0, ledgerOk⟩ sig0
        (encodeIntent intentDurable)
      = (Except.error ProgramError.InvalidAccountData, []) ∧
    process_intent
        ⟨[acctA, acctB, acctSys, acctT, acctU_unsigned], 0, ledgerOk⟩ sig0
        (encodeIntent intentDurable)
      = (Except.error ProgramError.MissingRequiredSignature, []) ∧
    process_intent ⟨[acctA, acctB, acctSys], 0, ledgerTransferFail⟩ sig0
        (encodeIntent intentPlain)
      = (Except.error (ProgramError.Custom 9),
         [ExtCall.transfer pkA pkB 1000000]) :=
  ⟨rfl, rfl, rfl, rfl, rfl, rfl, rfl, rfl⟩
